import Mathlib

/-!
Verification of the ledger-style hardware wallet simulator.

The development shallowly embeds the simulator's core logic: the
deterministic pseudo-hash used to fabricate addresses (including the
JavaScript numeric semantics it relies on: 32-bit coercions of the
bitwise operators and the IEEE-754 double rounding of the `h1`
multiplication), the app catalogue, and the screen state machine with
its five input operations plus the timer-driven transitions.

Strings are embedded as `List Char`; JavaScript numbers that hold
integers are embedded as `Int` with explicit reductions modulo 2^32.
-/

namespace LedgerSim

/-- Strings of the simulator are modelled as lists of characters. -/
abbrev Str := List Char

/-! ## JavaScript numeric primitives -/

/-- ToUint32: reduce an integer into `[0, 2^32)` (JS `>>> 0`). -/
def toUint32 (x : Int) : Int := x % (2 ^ 32 : Int)

/-- ToInt32: reduce an integer into `[-2^31, 2^31)` (operand coercion of
the JS bitwise operators). -/
def toInt32 (x : Int) : Int :=
  if toUint32 x < 2 ^ 31 then toUint32 x else toUint32 x - 2 ^ 32

/-- JS `^`: XOR of the 32-bit patterns, result read as a signed int32. -/
def jsXor (a b : Int) : Int :=
  toInt32 (Int.ofNat (Nat.xor (toUint32 a).toNat (toUint32 b).toNat))

/-- JS `<< 5` on an int32 operand: shift the 32-bit pattern, read signed. -/
def jsShl5 (a : Int) : Int := toInt32 (toUint32 a * 32)

/-- JS `>> 2`: sign-propagating shift of the int32 operand, i.e. floor
division of the signed value by 4. -/
def jsAsr2 (a : Int) : Int := Int.fdiv (toInt32 a) 4

/-- Round an integer to the nearest IEEE-754 double (ties to even).
Valid for `|p| < 2^56`, which covers every product formed below
(an int32 times the 25-bit FNV prime). -/
def roundDouble (p : Int) : Int :=
  let n := p.natAbs
  let k : Nat :=
    if n ≤ 2 ^ 53 then 0
    else if n < 2 ^ 54 then 1
    else if n < 2 ^ 55 then 2
    else 3
  if k = 0 then p
  else
    let u : Nat := 2 ^ k
    let q := n / u
    let r := n % u
    let half := u / 2
    let q' := if r < half then q else if half < r then q + 1
      else if q % 2 = 0 then q else q + 1
    if p < 0 then -(Int.ofNat (q' * u)) else Int.ofNat (q' * u)

/-! ## pseudoHash -/

/-- One update of the `h1` accumulator:
`h1 ^= c; h1 = (h1 * 0x01000193) >>> 0`.  The multiplication happens on
JS doubles, so the exact product (up to 2^55.1) is rounded. -/
def h1Step (h1 c : Int) : Int :=
  toUint32 (roundDouble (jsXor h1 c * 0x01000193))

/-- One update of the `h2` accumulator:
`h2 ^= (h2 << 5) + (h2 >> 2) + c; h2 >>>= 0`.  The sum is exact in
doubles (below 2^38). -/
def h2Step (h2 c : Int) : Int :=
  toUint32 (jsXor h2 (jsShl5 h2 + jsAsr2 h2 + c))

/-- Absorb the input string into the two accumulators, starting from the
constants `0x811c9dc5` and `0x45d9f3b`. -/
def hashAbsorb (input : Str) : Int × Int :=
  input.foldl
    (fun p ch => (h1Step p.1 (Int.ofNat ch.toNat), h2Step p.2 (Int.ofNat ch.toNat)))
    (0x811c9dc5, 0x45d9f3b)

/-- Hexadecimal digit characters, as produced by JS `toString(16)`. -/
def hexDigitChar (n : Nat) : Char :=
  if n < 10 then Char.ofNat (48 + n) else Char.ofNat (87 + n)

/-- Big-endian hex digits of `n` prepended to `acc`; the fuel bounds the
number of digits (any fuel at least the digit count gives the full
expansion). -/
def natHexCore : Nat → Nat → Str → Str
  | 0, _, acc => acc
  | fuel + 1, n, acc =>
    if n = 0 then acc
    else natHexCore fuel (n / 16) (hexDigitChar (n % 16) :: acc)

/-- JS `n.toString(16)` for a natural number. -/
def natHex (n : Nat) : Str :=
  if n = 0 then [hexDigitChar 0] else natHexCore (n + 1) n []

/-- JS `h.toString(16)` for an integral number: negative values render as
a minus sign followed by the digits of the absolute value. -/
def jsHexString (h : Int) : Str :=
  if h < 0 then '-' :: natHex h.natAbs else natHex h.toNat

/-- Last `n` characters of a string (JS `slice(-n)` on a string of length
at least `n`, and the whole string otherwise). -/
def takeRight (l : Str) (n : Nat) : Str := l.drop (l.length - n)

/-- `hex` helper of `pseudoHash`: `("00000000" + h.toString(16)).slice(-8)`. -/
def hex8 (h : Int) : Str := takeRight (("00000000").data ++ jsHexString h) 8

/-- The output loop of `pseudoHash`: each iteration appends
`hex(h1++) + hex(h2--)`; `n` is the number of iterations. -/
def hashBlocks (h1 h2 : Int) : Nat → Str
  | 0 => []
  | n + 1 => hex8 h1 ++ hex8 h2 ++ hashBlocks (h1 + 1) (h2 - 1) n

/-- `pseudoHash(input, len)`: absorb the input, then emit 16 characters
per loop iteration while the output is shorter than `len` (hence
`⌈len/16⌉` iterations) and slice to `len`.  The JS default `len` is 40;
call sites pass it explicitly here. -/
def pseudoHash (input : Str) (len : Nat) : Str :=
  ((hashBlocks (hashAbsorb input).1 (hashAbsorb input).2 ((len + 15) / 16)).take len)

/-- The sixteen characters JS `toString(16)` can produce for
non-negative numbers. -/
def hexAlphabet : Str := ("0123456789abcdef").data

/-! ## App catalogue -/

/-- Static catalogue entry.  The JS object also carries an `address`
closure; those closures are defunctionalised into `deriveAddress`,
keyed on `key`. -/
structure WalletApp where
  key : Str
  name : Str
  currency : Str
  decimals : Nat
deriving DecidableEq

def btcApp : WalletApp := ⟨("btc").data, ("Bitcoin").data, ("BTC").data, 8⟩

def ethApp : WalletApp := ⟨("eth").data, ("Ethereum").data, ("ETH").data, 18⟩

def solApp : WalletApp := ⟨("sol").data, ("Solana").data, ("SOL").data, 9⟩

/-- The fixed three-entry demo catalogue. -/
def apps : List WalletApp := [btcApp, ethApp, solApp]

/-- The per-app `address` closures of the catalogue:
btc: `"bc1" + pseudoHash(seed + ":btc", 36)`;
eth: `"0x" + pseudoHash(seed + ":eth", 40)`;
sol: `pseudoHash(seed + ":sol", 44)`. -/
def deriveAddress (a : WalletApp) (seed : Str) : Str :=
  if a.key = ("btc").data then ("bc1").data ++ pseudoHash (seed ++ (":btc").data) 36
  else if a.key = ("eth").data then ("0x").data ++ pseudoHash (seed ++ (":eth").data) 40
  else pseudoHash (seed ++ (":sol").data) 44

/-- `apps[i]` for an in-range index (out of range never occurs: the
index is clamped to `[0, apps.length-1]`). -/
def appAt (i : Int) : WalletApp := apps.getD i.toNat btcApp

/-! ## Screen and device state -/

/-- The tagged union of the seven screens.  Bounded numeric fields are
JS numbers, embedded as `Int`. -/
inductive Screen where
  | splash
  | lock (pin : Str) (cursor : Int)
  | home
  | apps (index : Int)
  | address (app : WalletApp)
  | txReview (app : WalletApp) (step : Int) (approved : Bool)
  | settings (index : Int)
deriving DecidableEq

/-- The component state: `powered` and `screen` React state, the toast
message, the session seed (set once at mount), and the pending one-shot
`setTimeout` that the successful PIN commit schedules to move to
`Home`. -/
structure DeviceState where
  powered : Bool
  seed : Str
  screen : Screen
  toast : Option Str
  pendingHome : Bool
deriving DecidableEq

/-- Initial state of a session: splash screen, powered on, seed
`pseudoHash("demo-seed")` (with the default length 40). -/
def initState : DeviceState :=
  ⟨true, pseudoHash (("demo-seed").data) 40, Screen.splash, none, false⟩

/-- `clamp(n, min, max) = Math.max(min, Math.min(max, n))`. -/
def clamp (n lo hi : Int) : Int := max lo (min hi n)

/-- `shorten(addr, prefixLen, suffixLen)`; the JS defaults (6, 6) are
passed explicitly at call sites. -/
def shorten (addr : Str) (pre suf : Nat) : Str :=
  if addr = [] then []
  else addr.take pre ++ ['…'] ++ takeRight addr suf

/-- The mock transaction, derived once from the seed.  The numeric
`amount`/`fee` fields are only ever rendered into the strings below. -/
structure Tx where
  «to» : Str
  network : Str
deriving DecidableEq

/-- `tx`: `to` is `apps[1].address(seed).slice(0, 42)`. -/
def tx (seed : Str) : Tx :=
  ⟨(deriveAddress ethApp seed).take 42, ("Ethereum").data⟩

/-- The six transaction review steps.  `"0.042 ETH"` and
`"0.00021 ETH"` are the renderings of the template literals
`` `${tx.amount} ETH` `` and `` `${tx.fee} ETH` ``. -/
def txSteps (seed : Str) : List (Str × Str) :=
  [ (("Review").data, ("Transaction").data),
    (("Network").data, (tx seed).network),
    (("To").data, shorten (tx seed).«to» 10 10),
    (("Amount").data, ("0.042 ETH").data),
    (("Max Fee").data, ("0.00021 ETH").data),
    (("Hold both").data, ("to approve").data) ]

/-- The behaviours bound to the settings menu entries, defunctionalised
from the closures in `settingsMenu`. -/
inductive SettingsAction where
  | toastMax
  | toastAbout
  | gotoLock
  | power
deriving DecidableEq

/-- The settings menu: four labelled entries; the last label depends on
the current power state. -/
def settingsMenu (powered : Bool) : List (Str × SettingsAction) :=
  [ (("Brightness").data, SettingsAction.toastMax),
    (("About").data, SettingsAction.toastAbout),
    (("Lock").data, SettingsAction.gotoLock),
    ((if powered then ("Power Off").data else ("Power On").data), SettingsAction.power) ]

/-! ## Operations -/

/-- `showToast`: set the toast message (its auto-clear timer is the
`toastClear` event). -/
def showToast (msg : Str) (st : DeviceState) : DeviceState :=
  { st with toast := some msg }

/-- Interpret a settings menu action on the state. -/
def applySettingsAction : SettingsAction → DeviceState → DeviceState
  | SettingsAction.toastMax, st => showToast (("Max").data) st
  | SettingsAction.toastAbout, st => showToast (("v1.0 demo").data) st
  | SettingsAction.gotoLock, st => { st with screen := Screen.lock [] 0 }
  | SettingsAction.power, st => { st with powered := !st.powered }

/-- The `left` button. -/
def left (st : DeviceState) : DeviceState :=
  if !st.powered then st else
  match st.screen with
  | Screen.apps i =>
      { st with screen := Screen.apps (clamp (i - 1) 0 ((apps.length : Int) - 1)) }
  | Screen.txReview a s ap =>
      { st with screen := Screen.txReview a (clamp (s - 1) 0 (((txSteps st.seed).length : Int) - 1)) ap }
  | Screen.settings i =>
      { st with screen := Screen.settings (clamp (i - 1) 0 (((settingsMenu st.powered).length : Int) - 1)) }
  | Screen.lock pin cur =>
      { st with screen := Screen.lock pin (clamp (cur - 1) 0 3) }
  | _ => st

/-- The `right` button. -/
def right (st : DeviceState) : DeviceState :=
  if !st.powered then st else
  match st.screen with
  | Screen.apps i =>
      { st with screen := Screen.apps (clamp (i + 1) 0 ((apps.length : Int) - 1)) }
  | Screen.txReview a s ap =>
      { st with screen := Screen.txReview a (clamp (s + 1) 0 (((txSteps st.seed).length : Int) - 1)) ap }
  | Screen.settings i =>
      { st with screen := Screen.settings (clamp (i + 1) 0 (((settingsMenu st.powered).length : Int) - 1)) }
  | Screen.lock pin cur =>
      { st with screen := Screen.lock pin (clamp (cur + 1) 0 3) }
  | _ => st

/-- `Number(d) || 0` for the single-character slot `d`: digits map to
their value, the placeholder (or any non-digit) to 0. -/
def numOr0 (c : Char) : Nat :=
  if '0' ≤ c ∧ c ≤ '9' then c.toNat - 48 else 0

/-- JS `padEnd(n, c)`. -/
def padEnd (l : Str) (n : Nat) (c : Char) : Str :=
  l ++ List.replicate (n - l.length) c

/-- The PIN commit computed by `confirm` on the lock screen: pad the pin
to 4 slots with `'_'`, replace the slot at `cursor` by its incremented
digit (placeholder counts as 0, wrapping 9 to 0), and strip the
placeholders. -/
def lockCommit (pin : Str) (cursor : Int) : Str :=
  let nextPin := padEnd pin 4 '_'
  let next := nextPin.set cursor.toNat
    (Char.ofNat (48 + (numOr0 (nextPin.getD cursor.toNat '_') + 1) % 10))
  next.filter (fun c => c != '_')

/-- The `confirm` (both-buttons) action. -/
def confirm (st : DeviceState) : DeviceState :=
  if !st.powered then st else
  match st.screen with
  | Screen.lock pin cursor =>
      if pin = ("1234").data then { st with screen := Screen.home }
      else
        let committed := lockCommit pin cursor
        let st1 := { st with screen := Screen.lock committed cursor }
        let st2 :=
          if committed.length = 4 then
            showToast (if committed = ("1234").data then ("PIN OK").data else ("Wrong PIN").data) st1
          else st1
        if committed = ("1234").data then { st2 with pendingHome := true } else st2
  | Screen.home => { st with screen := Screen.apps 0 }
  | Screen.apps i => { st with screen := Screen.address (appAt i) }
  | Screen.address a => { st with screen := Screen.txReview a 0 false }
  | Screen.txReview a s ap =>
      if s < ((txSteps st.seed).length : Int) - 1 then
        { st with screen := Screen.txReview a (s + 1) ap }
      else
        { st with screen := Screen.txReview a s true }
  | Screen.settings i =>
      match (settingsMenu st.powered).get? i.toNat with
      | some entry => applySettingsAction entry.2 st
      | none => st
  | _ => st

/-- The `back` button. -/
def back (st : DeviceState) : DeviceState :=
  if !st.powered then st else
  match st.screen with
  | Screen.apps _ => { st with screen := Screen.home }
  | Screen.settings _ => { st with screen := Screen.home }
  | Screen.address _ => { st with screen := Screen.apps 0 }
  | Screen.txReview a _ _ => { st with screen := Screen.address a }
  | _ => st

/-- The power toggle (`P` key or power button): flips `powered`
unconditionally. -/
def togglePower (st : DeviceState) : DeviceState :=
  { st with powered := !st.powered }

/-- The splash timer: after the 800ms delay the lock screen is entered;
the effect cleanup cancels the timer when the screen changes, so it
only ever fires on the splash screen. -/
def splashTick (st : DeviceState) : DeviceState :=
  match st.screen with
  | Screen.splash => { st with screen := Screen.lock [] 0 }
  | _ => st

/-- The 300ms timer scheduled by a successful PIN commit; it is never
cancelled and sets the screen to `Home` regardless of the state when it
fires. -/
def homeTick (st : DeviceState) : DeviceState :=
  if st.pendingHome then { st with screen := Screen.home, pendingHome := false } else st

/-- The on-device Settings button (and the Home screen link): jumps to
`Settings{index: 0}`. -/
def settingsOpen (st : DeviceState) : DeviceState :=
  { st with screen := Screen.settings 0 }

/-- The toast auto-clear timer (1500ms). -/
def toastClear (st : DeviceState) : DeviceState :=
  { st with toast := none }

/-! ## Event semantics -/

/-- All inputs the component reacts to: the five user signals, the two
one-shot timers, the Settings shortcut button and the toast clear. -/
inductive Ev where
  | left
  | right
  | confirm
  | back
  | togglePower
  | splashTick
  | homeTick
  | settingsOpen
  | toastClear
deriving DecidableEq

/-- Dispatch one event. -/
def applyEv : Ev → DeviceState → DeviceState
  | Ev.left, st => left st
  | Ev.right, st => right st
  | Ev.confirm, st => confirm st
  | Ev.back, st => back st
  | Ev.togglePower, st => togglePower st
  | Ev.splashTick, st => splashTick st
  | Ev.homeTick, st => homeTick st
  | Ev.settingsOpen, st => settingsOpen st
  | Ev.toastClear, st => toastClear st

/-- Run a sequence of events. -/
def runEvents (evs : List Ev) (st : DeviceState) : DeviceState :=
  evs.foldl (fun s e => applyEv e s) st

/-- A state is reachable when some event sequence leads to it from the
initial state. -/
def Reachable (st : DeviceState) : Prop :=
  ∃ evs : List Ev, runEvents evs initState = st

/-- The range invariant of the bounded screen fields. -/
def ScreenInv : Screen → Prop
  | Screen.lock _ cur => 0 ≤ cur ∧ cur ≤ 3
  | Screen.apps i => 0 ≤ i ∧ i ≤ 2
  | Screen.txReview _ s _ => 0 ≤ s ∧ s ≤ 5
  | Screen.settings i => 0 ≤ i ∧ i ≤ 3
  | _ => True

/-- The approval flag of a transaction review screen (false elsewhere). -/
def screenApproved : Screen → Bool
  | Screen.txReview _ _ ap => ap
  | _ => false

/-- The state after the splash timer: `Lock{pin: "", cursor: 0}`,
powered on. -/
def lockStart : DeviceState := splashTick initState

/-- A session state sitting on the home screen, powered on. -/
def homeStart : DeviceState := { initState with screen := Screen.home }

end LedgerSim

namespace LedgerSim

set_option maxRecDepth 100000

/-! ## C1: the PIN entry scenario -/

/-- C1 counterexample: from `Lock{pin:"", cursor:0}` the event sequence
confirm, right, confirm, right, confirm, right, confirm sets every slot
to 1, not to 1,2,3,4: it commits the pin "1111", emits the "Wrong PIN"
toast, schedules no transition, and even after the PIN timer slot the
screen is not `Home`. -/
theorem pin_entry_claimed_sequence_mismatch :
    (runEvents [Ev.confirm, Ev.right, Ev.confirm, Ev.right, Ev.confirm, Ev.right, Ev.confirm]
        lockStart).screen = Screen.lock (("1111").data) 3 ∧
    (runEvents [Ev.confirm, Ev.right, Ev.confirm, Ev.right, Ev.confirm, Ev.right, Ev.confirm]
        lockStart).toast = some (("Wrong PIN").data) ∧
    (runEvents [Ev.confirm, Ev.right, Ev.confirm, Ev.right, Ev.confirm, Ev.right, Ev.confirm]
        lockStart).pendingHome = false ∧
    (runEvents [Ev.confirm, Ev.right, Ev.confirm, Ev.right, Ev.confirm, Ev.right, Ev.confirm,
        Ev.homeTick] lockStart).screen ≠ Screen.home := by
  decide

/-- C1 (amended): each confirm increments the slot under the cursor by
one, so reaching the pin "1234" takes one confirm at cursor 0, two at
cursor 1, three at cursor 2 and four at cursor 3; that sequence commits
the slots to 1, 2, 3, 4, emits the "PIN OK" toast, and the scheduled
timer then moves to `Home`. -/
theorem pin_entry_incremental_reaches_home :
    (runEvents [Ev.confirm] lockStart).screen = Screen.lock (("1").data) 0 ∧
    (runEvents [Ev.confirm, Ev.right, Ev.confirm, Ev.confirm] lockStart).screen
      = Screen.lock (("12").data) 1 ∧
    (runEvents [Ev.confirm, Ev.right, Ev.confirm, Ev.confirm, Ev.right, Ev.confirm, Ev.confirm,
        Ev.confirm] lockStart).screen = Screen.lock (("123").data) 2 ∧
    (runEvents [Ev.confirm, Ev.right, Ev.confirm, Ev.confirm, Ev.right, Ev.confirm, Ev.confirm,
        Ev.confirm, Ev.right, Ev.confirm, Ev.confirm, Ev.confirm, Ev.confirm] lockStart).screen
      = Screen.lock (("1234").data) 3 ∧
    (runEvents [Ev.confirm, Ev.right, Ev.confirm, Ev.confirm, Ev.right, Ev.confirm, Ev.confirm,
        Ev.confirm, Ev.right, Ev.confirm, Ev.confirm, Ev.confirm, Ev.confirm] lockStart).toast
      = some (("PIN OK").data) ∧
    (runEvents [Ev.confirm, Ev.right, Ev.confirm, Ev.confirm, Ev.right, Ev.confirm, Ev.confirm,
        Ev.confirm, Ev.right, Ev.confirm, Ev.confirm, Ev.confirm, Ev.confirm] lockStart).pendingHome
      = true ∧
    (runEvents [Ev.confirm, Ev.right, Ev.confirm, Ev.confirm, Ev.right, Ev.confirm, Ev.confirm,
        Ev.confirm, Ev.right, Ev.confirm, Ev.confirm, Ev.confirm, Ev.confirm, Ev.homeTick]
        lockStart).screen = Screen.home := by
  decide

/-! ## C2: the full navigation scenario -/

/-- C2 counterexample: from `Home`, after confirm, right, confirm,
confirm and then confirm repeated `stepCount - 1 = 5` times, the screen
is `TxReview{step: 5, approved: false}` — not yet approved. -/
theorem navigation_scenario_missing_confirm :
    (runEvents [Ev.confirm, Ev.right, Ev.confirm, Ev.confirm, Ev.confirm, Ev.confirm, Ev.confirm,
        Ev.confirm, Ev.confirm] homeStart).screen = Screen.txReview ethApp 5 false ∧
    screenApproved (runEvents [Ev.confirm, Ev.right, Ev.confirm, Ev.confirm, Ev.confirm, Ev.confirm,
        Ev.confirm, Ev.confirm, Ev.confirm] homeStart).screen = false := by
  decide

/-- C2 (amended): the scenario passes through `Apps{0}`, `Apps{1}`,
`Address{apps[1]}`, `TxReview{step:0}`; the next `stepCount - 1 = 5`
confirms only advance the step to `stepCount - 1`, and one further
confirm (`stepCount` in total on the review screen) sets
`approved = true`. -/
theorem navigation_scenario_full_approval :
    (runEvents [Ev.confirm] homeStart).screen = Screen.apps 0 ∧
    (runEvents [Ev.confirm, Ev.right] homeStart).screen = Screen.apps 1 ∧
    (runEvents [Ev.confirm, Ev.right, Ev.confirm] homeStart).screen = Screen.address ethApp ∧
    (runEvents [Ev.confirm, Ev.right, Ev.confirm, Ev.confirm] homeStart).screen
      = Screen.txReview ethApp 0 false ∧
    (runEvents [Ev.confirm, Ev.right, Ev.confirm, Ev.confirm, Ev.confirm, Ev.confirm, Ev.confirm,
        Ev.confirm, Ev.confirm] homeStart).screen = Screen.txReview ethApp 5 false ∧
    (runEvents [Ev.confirm, Ev.right, Ev.confirm, Ev.confirm, Ev.confirm, Ev.confirm, Ev.confirm,
        Ev.confirm, Ev.confirm, Ev.confirm] homeStart).screen = Screen.txReview ethApp 5 true := by
  decide

/-! ## C4: power frame conditions -/

/-- C4: while powered off, `left`, `right`, `confirm` and `back` leave
the whole state unchanged; `togglePower` always flips `powered` and
changes nothing else. -/
theorem powered_off_noops_and_toggle :
    (∀ st : DeviceState, st.powered = false →
      left st = st ∧ right st = st ∧ confirm st = st ∧ back st = st) ∧
    (∀ st : DeviceState,
      (togglePower st).powered = !st.powered ∧
      (togglePower st).screen = st.screen ∧
      (togglePower st).seed = st.seed ∧
      (togglePower st).toast = st.toast ∧
      (togglePower st).pendingHome = st.pendingHome) := by
  constructor
  · intro st h
    refine ⟨?_, ?_, ?_, ?_⟩ <;> simp [left, right, confirm, back, h]
  · intro st
    simp [togglePower]

/-- C4 witness: the frame conditions instantiated at a powered-off
state on the apps screen. -/
theorem powered_off_noops_and_toggle_witness :
    (left { initState with powered := false, screen := Screen.apps 1 }
        = { initState with powered := false, screen := Screen.apps 1 } ∧
      right { initState with powered := false, screen := Screen.apps 1 }
        = { initState with powered := false, screen := Screen.apps 1 } ∧
      confirm { initState with powered := false, screen := Screen.apps 1 }
        = { initState with powered := false, screen := Screen.apps 1 } ∧
      back { initState with powered := false, screen := Screen.apps 1 }
        = { initState with powered := false, screen := Screen.apps 1 }) ∧
    (togglePower { initState with powered := false, screen := Screen.apps 1 }).powered = true :=
  ⟨powered_off_noops_and_toggle.1 { initState with powered := false, screen := Screen.apps 1 } rfl,
    (powered_off_noops_and_toggle.2 { initState with powered := false, screen := Screen.apps 1 }).1⟩

/-! ## C6: confirm on Address and TxReview -/

/-- C6: when powered, confirm moves `Address{app}` to
`TxReview{app, step: 0, approved: false}`; on `TxReview` it increments
the step while `step < stepCount - 1` (keeping `approved`) and sets
`approved := true` at the final step (keeping `step`). -/
theorem confirm_address_and_txreview :
    ∀ st : DeviceState, st.powered = true →
      (∀ a : WalletApp, st.screen = Screen.address a →
        (confirm st).screen = Screen.txReview a 0 false) ∧
      (∀ (a : WalletApp) (s : Int) (ap : Bool), st.screen = Screen.txReview a s ap →
        (s < ((txSteps st.seed).length : Int) - 1 →
          (confirm st).screen = Screen.txReview a (s + 1) ap) ∧
        (s = ((txSteps st.seed).length : Int) - 1 →
          (confirm st).screen = Screen.txReview a s true)) := by
  intro st hp
  constructor
  · intro a h
    simp [confirm, hp, h]
  · intro a s ap h
    constructor
    · intro hlt
      simp [txSteps] at hlt
      simp [confirm, hp, h, txSteps, hlt]
    · intro heq
      simp [txSteps] at heq
      simp [confirm, hp, h, txSteps, heq]

/-- C6 witness: the three transitions instantiated on concrete states. -/
theorem confirm_address_and_txreview_witness :
    (confirm { initState with screen := Screen.address btcApp }).screen
      = Screen.txReview btcApp 0 false ∧
    (confirm { initState with screen := Screen.txReview btcApp 0 false }).screen
      = Screen.txReview btcApp 1 false ∧
    (confirm { initState with screen := Screen.txReview btcApp 5 true }).screen
      = Screen.txReview btcApp 5 true :=
  ⟨(confirm_address_and_txreview { initState with screen := Screen.address btcApp } rfl).1
      btcApp rfl,
    (((confirm_address_and_txreview { initState with screen := Screen.txReview btcApp 0 false }
      rfl).2 btcApp 0 false rfl).1 (by simp [txSteps])),
    (((confirm_address_and_txreview { initState with screen := Screen.txReview btcApp 5 true }
      rfl).2 btcApp 5 true rfl).2 (by simp [txSteps]))⟩

/-! ## C7: back navigation -/

/-- C7: when powered, `back` maps `Apps` and `Settings` to `Home`,
`Address` to `Apps{0}`, `TxReview` to `Address` with the same app, and
is a no-op on `Splash`, `Lock` and `Home`. -/
theorem back_navigation :
    ∀ st : DeviceState, st.powered = true →
      (∀ i : Int, st.screen = Screen.apps i → (back st).screen = Screen.home) ∧
      (∀ i : Int, st.screen = Screen.settings i → (back st).screen = Screen.home) ∧
      (∀ a : WalletApp, st.screen = Screen.address a → (back st).screen = Screen.apps 0) ∧
      (∀ (a : WalletApp) (s : Int) (ap : Bool), st.screen = Screen.txReview a s ap →
        (back st).screen = Screen.address a) ∧
      (st.screen = Screen.splash → back st = st) ∧
      (∀ (p : Str) (c : Int), st.screen = Screen.lock p c → back st = st) ∧
      (st.screen = Screen.home → back st = st) := by
  intro st hp
  refine ⟨?_, ?_, ?_, ?_, ?_, ?_, ?_⟩
  · intro i h; simp [back, hp, h]
  · intro i h; simp [back, hp, h]
  · intro a h; simp [back, hp, h]
  · intro a s ap h; simp [back, hp, h]
  · intro h; simp [back, hp, h]
  · intro p c h; simp [back, hp, h]
  · intro h; simp [back, hp, h]

/-- C7 witness: back from a mid-review state returns to the address
screen of the same app; back on the lock screen is a no-op. -/
theorem back_navigation_witness :
    (back { initState with screen := Screen.txReview solApp 4 true }).screen
      = Screen.address solApp ∧
    (back { initState with screen := Screen.address solApp }).screen = Screen.apps 0 ∧
    back lockStart = lockStart :=
  ⟨(back_navigation { initState with screen := Screen.txReview solApp 4 true } rfl).2.2.2.1
      solApp 4 true rfl,
    (back_navigation { initState with screen := Screen.address solApp } rfl).2.2.1 solApp rfl,
    (back_navigation lockStart rfl).2.2.2.2.2.1 [] 0 rfl⟩

/-! ## C8: the PIN commit toast -/

/-- C8: when powered and on `Lock` with a pin other than "1234",
whenever the committed pin has length 4 a toast is emitted — "PIN OK"
when it is "1234" and "Wrong PIN" otherwise — and in the wrong case the
screen stays on `Lock` with the committed pin and unchanged cursor, and
no transition to `Home` is scheduled. -/
theorem lock_commit_toast :
    ∀ (st : DeviceState) (pin : Str) (cursor : Int),
      st.powered = true → st.screen = Screen.lock pin cursor →
      pin ≠ ("1234").data → (lockCommit pin cursor).length = 4 →
      ((confirm st).toast = some (if lockCommit pin cursor = ("1234").data
          then ("PIN OK").data else ("Wrong PIN").data)) ∧
      (lockCommit pin cursor ≠ ("1234").data →
        (confirm st).screen = Screen.lock (lockCommit pin cursor) cursor ∧
        (confirm st).pendingHome = st.pendingHome) := by
  intro st pin cursor hp hs hne hlen
  by_cases hc : lockCommit pin cursor = ("1234").data
  · simp [confirm, hp, hs, hne, hlen, hc, showToast]
  · simp [confirm, hp, hs, hne, hlen, hc, showToast]

/-- C8 witness: committing from `Lock{pin:"123", cursor:3}` yields the
4-digit pin "1231", the "Wrong PIN" toast, and stays on `Lock`. -/
theorem lock_commit_toast_witness :
    (("123").data : Str) ≠ ("1234").data ∧
    (lockCommit (("123").data) 3).length = 4 ∧
    (confirm { initState with screen := Screen.lock (("123").data) 3 }).toast
      = some (("Wrong PIN").data) ∧
    (confirm { initState with screen := Screen.lock (("123").data) 3 }).screen
      = Screen.lock (("1231").data) 3 := by
  have h := lock_commit_toast { initState with screen := Screen.lock (("123").data) 3 }
    (("123").data) 3 rfl rfl (by decide) (by decide)
  refine ⟨by decide, by decide, ?_, ?_⟩
  · rw [h.1]; decide
  · exact ((h.2 (by decide)).1).trans (by decide)

/-! ## C9: the settings menu -/

/-- C9: the settings menu has exactly the four labelled entries in
order (the last label depending on the power state), and confirm at
index 0/1 only toasts ("Max" / "v1.0 demo"), at index 2 moves to
`Lock{pin:"", cursor:0}`, and at index 3 flips the power flag. -/
theorem settings_menu_behaviour :
    (∀ p : Bool, (settingsMenu p).length = 4) ∧
    (∀ p : Bool, (settingsMenu p).map Prod.fst =
      [("Brightness").data, ("About").data, ("Lock").data,
        if p then ("Power Off").data else ("Power On").data]) ∧
    (∀ (st : DeviceState) (i : Int), st.powered = true → st.screen = Screen.settings i →
      (i = 0 → (confirm st).toast = some (("Max").data) ∧ (confirm st).screen = st.screen) ∧
      (i = 1 → (confirm st).toast = some (("v1.0 demo").data) ∧ (confirm st).screen = st.screen) ∧
      (i = 2 → (confirm st).screen = Screen.lock [] 0) ∧
      (i = 3 → (confirm st).powered = false ∧ (confirm st).screen = st.screen)) := by
  refine ⟨by decide, by decide, ?_⟩
  intro st i hp hs
  refine ⟨?_, ?_, ?_, ?_⟩ <;> rintro rfl <;>
    simp [confirm, hp, hs, settingsMenu, applySettingsAction, showToast]

/-- C9 witness: the four confirm behaviours on concrete settings
states. -/
theorem settings_menu_behaviour_witness :
    (confirm { initState with screen := Screen.settings 0 }).toast = some (("Max").data) ∧
    (confirm { initState with screen := Screen.settings 1 }).toast
      = some (("v1.0 demo").data) ∧
    (confirm { initState with screen := Screen.settings 2 }).screen = Screen.lock [] 0 ∧
    (confirm { initState with screen := Screen.settings 3 }).powered = false :=
  ⟨((settings_menu_behaviour.2.2 { initState with screen := Screen.settings 0 } 0 rfl rfl).1
      rfl).1,
    ((settings_menu_behaviour.2.2 { initState with screen := Screen.settings 1 } 1 rfl rfl).2.1
      rfl).1,
    (settings_menu_behaviour.2.2 { initState with screen := Screen.settings 2 } 2 rfl rfl).2.2.1
      rfl,
    ((settings_menu_behaviour.2.2 { initState with screen := Screen.settings 3 } 3 rfl rfl).2.2.2
      rfl).1⟩

/-! ## C10: the session seed -/

/-- Settings actions never touch the seed. -/
lemma applySettingsAction_seed (act : SettingsAction) (st : DeviceState) :
    (applySettingsAction act st).seed = st.seed := by
  cases act <;> simp [applySettingsAction, showToast]

/-- No event writes the seed. -/
lemma applyEv_seed (e : Ev) (st : DeviceState) : (applyEv e st).seed = st.seed := by
  obtain ⟨p, sd, scr, t, ph⟩ := st
  cases e <;> cases p <;> cases scr <;>
    simp [applyEv, left, right, confirm, back, togglePower, splashTick, homeTick,
      settingsOpen, toastClear, showToast] <;>
    first
    | rfl
    | (split_ifs <;> simp [showToast])
    | (rename_i i
       rcases h : (settingsMenu false)[i.toNat]? with _ | entry <;>
         simp [h, applySettingsAction_seed])
    | (rename_i i
       rcases h : (settingsMenu true)[i.toNat]? with _ | entry <;>
         simp [h, applySettingsAction_seed])

/-- The seed after any event sequence. -/
lemma runEvents_seed (evs : List Ev) (st : DeviceState) :
    (runEvents evs st).seed = st.seed := by
  induction evs generalizing st with
  | nil => rfl
  | cons e evs ih =>
    have h : runEvents (e :: evs) st = runEvents evs (applyEv e st) := rfl
    rw [h, ih, applyEv_seed]

/-- C10: the session seed is the constant `pseudoHash("demo-seed")`
(default length 40), no event ever writes it, and therefore the seed,
every derived address, and the mock transaction are the same in any two
sessions (i.e. after any two event histories). -/
theorem seed_constant_and_deterministic :
    initState.seed = pseudoHash (("demo-seed").data) 40 ∧
    (∀ (e : Ev) (st : DeviceState), (applyEv e st).seed = st.seed) ∧
    (∀ evs : List Ev, (runEvents evs initState).seed = pseudoHash (("demo-seed").data) 40) ∧
    (∀ evs evs' : List Ev, ∀ a : WalletApp,
      deriveAddress a (runEvents evs initState).seed
        = deriveAddress a (runEvents evs' initState).seed ∧
      tx (runEvents evs initState).seed = tx (runEvents evs' initState).seed) := by
  refine ⟨rfl, applyEv_seed, fun evs => runEvents_seed evs initState, ?_⟩
  intro evs evs' a
  rw [runEvents_seed, runEvents_seed]
  exact ⟨rfl, rfl⟩

/-! ## C3: the range invariant -/

/-- `clamp` lands in `[lo, hi]` whenever the interval is nonempty. -/
lemma clamp_bounds (n lo hi : Int) (h : lo ≤ hi) :
    lo ≤ clamp n lo hi ∧ clamp n lo hi ≤ hi :=
  ⟨le_max_left lo _, max_le h (min_le_left hi n)⟩

/-- Settings actions preserve the range invariant. -/
lemma screenInv_applySettingsAction (act : SettingsAction) (st : DeviceState)
    (h : ScreenInv st.screen) : ScreenInv (applySettingsAction act st).screen := by
  cases act <;> simp [applySettingsAction, showToast, ScreenInv] <;> first | exact h | omega

/-- `left` preserves the range invariant. -/
lemma screenInv_left (st : DeviceState) (h : ScreenInv st.screen) :
    ScreenInv (left st).screen := by
  obtain ⟨p, sd, scr, t, ph⟩ := st
  cases p
  · simpa [left] using h
  · cases scr <;>
      simp_all [left, ScreenInv, clamp, txSteps, settingsMenu, apps]

/-- `right` preserves the range invariant. -/
lemma screenInv_right (st : DeviceState) (h : ScreenInv st.screen) :
    ScreenInv (right st).screen := by
  obtain ⟨p, sd, scr, t, ph⟩ := st
  cases p
  · simpa [right] using h
  · cases scr <;>
      simp_all [right, ScreenInv, clamp, txSteps, settingsMenu, apps]

/-- `confirm` preserves the range invariant. -/
lemma screenInv_confirm (st : DeviceState) (h : ScreenInv st.screen) :
    ScreenInv (confirm st).screen := by
  obtain ⟨p, sd, scr, t, ph⟩ := st
  cases p
  · simpa [confirm] using h
  · cases scr
    case splash => exact h
    case lock pin cur =>
      simp_all [confirm, ScreenInv, showToast]
      split_ifs <;> simp_all [ScreenInv]
    case home => simp [confirm, ScreenInv]
    case apps i => simp [confirm, ScreenInv]
    case address a => simp [confirm, ScreenInv]
    case txReview a s ap =>
      simp_all [confirm, ScreenInv, txSteps]
      split_ifs <;> simp_all [ScreenInv] <;> omega
    case settings i =>
      rcases hg : (settingsMenu true)[i.toNat]? with _ | entry
      · simpa [confirm, hg] using h
      · have h2 := screenInv_applySettingsAction entry.2
          ⟨true, sd, Screen.settings i, t, ph⟩ h
        simpa [confirm, hg] using h2

/-- `back` preserves the range invariant. -/
lemma screenInv_back (st : DeviceState) (h : ScreenInv st.screen) :
    ScreenInv (back st).screen := by
  obtain ⟨p, sd, scr, t, ph⟩ := st
  cases p
  · simpa [back] using h
  · cases scr <;> simp_all [back, ScreenInv]

/-- Every event preserves the range invariant. -/
lemma screenInv_applyEv (e : Ev) (st : DeviceState) (h : ScreenInv st.screen) :
    ScreenInv (applyEv e st).screen := by
  cases e
  case left => exact screenInv_left st h
  case right => exact screenInv_right st h
  case confirm => exact screenInv_confirm st h
  case back => exact screenInv_back st h
  case togglePower => simpa [applyEv, togglePower] using h
  case splashTick =>
    obtain ⟨p, sd, scr, t, ph⟩ := st
    cases scr <;> simp_all [applyEv, splashTick, ScreenInv]
  case homeTick =>
    simp only [applyEv, homeTick]
    split_ifs <;> simp_all [ScreenInv]
  case settingsOpen => simp [applyEv, settingsOpen, ScreenInv]
  case toastClear => simpa [applyEv, toastClear] using h

/-- Event sequences preserve the range invariant. -/
lemma screenInv_runEvents (evs : List Ev) (st : DeviceState) (h : ScreenInv st.screen) :
    ScreenInv (runEvents evs st).screen := by
  induction evs generalizing st with
  | nil => exact h
  | cons e evs ih => exact ih (applyEv e st) (screenInv_applyEv e st h)

/-- C3: every state reachable from the initial state keeps the bounded
fields in range (`Lock.cursor ∈ [0,3]`, `Apps.index ∈ [0, appCount-1]`
with `appCount = 3`, `TxReview.step ∈ [0, stepCount-1]` with
`stepCount = 6`, `Settings.index ∈ [0, menuCount-1]` with
`menuCount = 4`), and at the boundaries `left` at 0 and `right` at the
maximum leave the index in place. -/
theorem bounded_fields_in_range :
    (∀ st : DeviceState, Reachable st → ScreenInv st.screen) ∧
    apps.length = 3 ∧
    (∀ s : Str, (txSteps s).length = 6) ∧
    (∀ p : Bool, (settingsMenu p).length = 4) ∧
    (∀ (st : DeviceState) (i : Int), st.screen = Screen.apps i → i = 0 →
      (left st).screen = Screen.apps 0) ∧
    (∀ (st : DeviceState) (i : Int), st.screen = Screen.apps i → i = (apps.length : Int) - 1 →
      (right st).screen = Screen.apps ((apps.length : Int) - 1)) ∧
    (∀ (st : DeviceState) (i : Int), st.screen = Screen.settings i → i = 0 →
      (left st).screen = Screen.settings 0) ∧
    (∀ (st : DeviceState) (i : Int), st.screen = Screen.settings i →
      i = ((settingsMenu st.powered).length : Int) - 1 →
      (right st).screen = Screen.settings (((settingsMenu st.powered).length : Int) - 1)) ∧
    (∀ (st : DeviceState) (a : WalletApp) (s : Int) (ap : Bool),
      st.screen = Screen.txReview a s ap → s = 0 →
      (left st).screen = Screen.txReview a 0 ap) ∧
    (∀ (st : DeviceState) (a : WalletApp) (s : Int) (ap : Bool),
      st.screen = Screen.txReview a s ap → s = ((txSteps st.seed).length : Int) - 1 →
      (right st).screen = Screen.txReview a (((txSteps st.seed).length : Int) - 1) ap) ∧
    (∀ (st : DeviceState) (pin : Str) (c : Int), st.screen = Screen.lock pin c → c = 0 →
      (left st).screen = Screen.lock pin 0) ∧
    (∀ (st : DeviceState) (pin : Str) (c : Int), st.screen = Screen.lock pin c → c = 3 →
      (right st).screen = Screen.lock pin 3) := by
  refine ⟨?_, rfl, fun s => rfl, fun p => by cases p <;> rfl, ?_, ?_, ?_, ?_, ?_, ?_, ?_, ?_⟩
  · rintro st ⟨evs, rfl⟩
    exact screenInv_runEvents evs initState trivial
  all_goals
    intro st
  · intro i hs hi
    subst hi
    obtain ⟨p, sd, scr, t, ph⟩ := st
    cases p <;> simp_all [left, clamp, apps]
  · intro i hs hi
    subst hi
    obtain ⟨p, sd, scr, t, ph⟩ := st
    cases p <;> simp_all [right, clamp, apps]
  · intro i hs hi
    subst hi
    obtain ⟨p, sd, scr, t, ph⟩ := st
    cases p <;> simp_all [left, clamp, settingsMenu]
  · intro i hs hi
    subst hi
    obtain ⟨p, sd, scr, t, ph⟩ := st
    cases p <;> simp_all [right, clamp, settingsMenu]
  · intro a s ap hs hi
    subst hi
    obtain ⟨p, sd, scr, t, ph⟩ := st
    cases p <;> simp_all [left, clamp, txSteps]
  · intro a s ap hs hi
    subst hi
    obtain ⟨p, sd, scr, t, ph⟩ := st
    cases p <;> simp_all [right, clamp, txSteps]
  · intro pin c hs hc
    subst hc
    obtain ⟨p, sd, scr, t, ph⟩ := st
    cases p <;> simp_all [left, clamp]
  · intro pin c hs hc
    subst hc
    obtain ⟨p, sd, scr, t, ph⟩ := st
    cases p <;> simp_all [right, clamp]

/-- C3 witness: the invariant holds at the reachable lock state, and a
boundary move stays in place on a concrete state. -/
theorem bounded_fields_in_range_witness :
    ScreenInv lockStart.screen ∧
    (left { initState with screen := Screen.apps 0 }).screen = Screen.apps 0 ∧
    (right { initState with screen := Screen.apps 2 }).screen = Screen.apps 2 :=
  ⟨bounded_fields_in_range.1 lockStart ⟨[Ev.splashTick], rfl⟩,
    bounded_fields_in_range.2.2.2.2.1 { initState with screen := Screen.apps 0 } 0 rfl rfl,
    by
      have h := bounded_fields_in_range.2.2.2.2.2.1 { initState with screen := Screen.apps 2 }
        2 rfl (by decide)
      simpa using h⟩

/-! ## C5: address shape and alphabet -/

/-- `>>> 0` always lands in the non-negative range. -/
lemma toUint32_nonneg (x : Int) : 0 ≤ toUint32 x :=
  Int.emod_nonneg x (by norm_num)

/-- Both hash accumulators are non-negative after absorbing any input
(they are re-normalised by `>>> 0` at every step). -/
lemma hashAbsorb_nonneg (input : Str) :
    0 ≤ (hashAbsorb input).1 ∧ 0 ≤ (hashAbsorb input).2 := by
  have key : ∀ (l : List Char) (p : Int × Int), 0 ≤ p.1 → 0 ≤ p.2 →
      0 ≤ (List.foldl
        (fun p ch => (h1Step p.1 (Int.ofNat ch.toNat), h2Step p.2 (Int.ofNat ch.toNat)))
        p l).1 ∧
      0 ≤ (List.foldl
        (fun p ch => (h1Step p.1 (Int.ofNat ch.toNat), h2Step p.2 (Int.ofNat ch.toNat)))
        p l).2 := by
    intro l
    induction l with
    | nil => intro p hp1 hp2; exact ⟨hp1, hp2⟩
    | cons ch l ih =>
      intro p hp1 hp2
      simp only [List.foldl_cons]
      refine ih _ ?_ ?_
      · show 0 ≤ h1Step p.1 (Int.ofNat ch.toNat)
        exact toUint32_nonneg _
      · show 0 ≤ h2Step p.2 (Int.ofNat ch.toNat)
        exact toUint32_nonneg _
  exact key input (0x811c9dc5, 0x45d9f3b) (by norm_num) (by norm_num)

/-- The hex digit characters all belong to the alphabet. -/
lemma hexDigitChar_mem : ∀ n : Nat, n < 16 → hexDigitChar n ∈ hexAlphabet := by decide

/-- `natHexCore` only ever emits alphabet characters. -/
lemma natHexCore_mem (fuel : Nat) : ∀ (n : Nat) (acc : Str),
    (∀ c ∈ acc, c ∈ hexAlphabet) → ∀ c ∈ natHexCore fuel n acc, c ∈ hexAlphabet := by
  induction fuel with
  | zero => intro n acc hacc c hc; exact hacc c hc
  | succ f ih =>
    intro n acc hacc c hc
    by_cases hn : n = 0
    · simp only [natHexCore, hn, if_pos] at hc
      exact hacc c hc
    · simp only [natHexCore, hn, if_neg, ite_false] at hc
      refine ih (n / 16) _ ?_ c hc
      intro x hx
      rcases List.mem_cons.1 hx with h0 | h0
      · exact h0 ▸ hexDigitChar_mem _ (Nat.mod_lt n (by norm_num))
      · exact hacc x h0

/-- JS `toString(16)` of a natural number uses only the alphabet. -/
lemma natHex_mem (n : Nat) : ∀ c ∈ natHex n, c ∈ hexAlphabet := by
  by_cases hn : n = 0
  · subst hn; decide
  · intro c hc
    simp only [natHex, hn, if_neg, ite_false] at hc
    exact natHexCore_mem (n + 1) n [] (by simp) c hc

/-- JS `toString(16)` of a non-negative integral number uses only the
alphabet. -/
lemma jsHexString_mem (h : Int) (hh : 0 ≤ h) : ∀ c ∈ jsHexString h, c ∈ hexAlphabet := by
  intro c hc
  rw [jsHexString, if_neg (by omega)] at hc
  exact natHex_mem _ c hc

/-- `hex8` of a non-negative value consists of alphabet characters. -/
lemma hex8_mem (h : Int) (hh : 0 ≤ h) : ∀ c ∈ hex8 h, c ∈ hexAlphabet := by
  intro c hc
  have hc' := List.drop_subset _ _ hc
  rcases List.mem_append.1 hc' with h0 | h0
  · exact (by decide : ∀ x ∈ (("00000000").data : Str), x ∈ hexAlphabet) c h0
  · exact jsHexString_mem h hh c h0

/-- Every `hex8` block has exactly 8 characters. -/
lemma hex8_length (h : Int) : (hex8 h).length = 8 := by
  simp [hex8, takeRight]
  omega

/-- The output loop emits 16 characters per iteration. -/
lemma hashBlocks_length (n : Nat) : ∀ h1 h2 : Int, (hashBlocks h1 h2 n).length = 16 * n := by
  induction n with
  | zero => intro h1 h2; rfl
  | succ m ih =>
    intro h1 h2
    simp [hashBlocks, hex8_length, ih]
    omega

/-- `pseudoHash` always returns exactly `len` characters. -/
lemma pseudoHash_length (input : Str) (len : Nat) : (pseudoHash input len).length = len := by
  simp [pseudoHash, List.length_take, hashBlocks_length]
  omega

/-- Taking fewer characters keeps one inside a longer take. -/
lemma take_subset_take {α : Type} (l : List α) {m k : Nat} (h : m ≤ k) :
    l.take m ⊆ l.take k := by
  intro x hx
  rw [show l.take m = (l.take k).take m from by rw [List.take_take, Nat.min_eq_left h]] at hx
  exact List.take_subset _ _ hx

/-- One unfolding of the output loop. -/
lemma hashBlocks_succ (a b : Int) (n : Nat) :
    hashBlocks a b (n + 1) = hex8 a ++ hex8 b ++ hashBlocks (a + 1) (b - 1) n := rfl

/-- The three iterations of the output loop, written out. -/
lemma hashBlocks_three (a b : Int) :
    hashBlocks a b 3 = hex8 a ++ (hex8 b ++ (hex8 (a + 1) ++ (hex8 (b - 1) ++
      (hex8 (a + 1 + 1) ++ (hex8 (b - 1 - 1) ++ ([] : Str)))))) := by
  rw [show (3 : Nat) = 2 + 1 from rfl, hashBlocks_succ,
    show (2 : Nat) = 1 + 1 from rfl, hashBlocks_succ,
    show (1 : Nat) = 0 + 1 from rfl, hashBlocks_succ]
  simp [hashBlocks]

/-- Any prefix of at most 46 characters of the three-iteration output
holds only alphabet characters, provided the second accumulator is at
least 1: the blocks of `h1`, `h1+1`, `h1+2`, `h2` and `h2-1` are then
non-negative, and of the last block (`h2-2`, possibly `-1`) at most the
6 leading zero characters are kept. -/
lemma blocks3_take_mem (H1 H2 : Int) (h1 : 0 ≤ H1) (h2 : 1 ≤ H2) (len : Nat)
    (hlen : len ≤ 46) :
    ∀ c ∈ (hex8 H1 ++ (hex8 H2 ++ (hex8 (H1 + 1) ++ (hex8 (H2 - 1) ++
      (hex8 (H1 + 1 + 1) ++ (hex8 (H2 - 1 - 1) ++ ([] : Str))))))).take len,
      c ∈ hexAlphabet := by
  intro c hc
  simp only [List.take_append_eq_append_take, hex8_length, List.take_nil, List.append_nil,
    List.mem_append] at hc
  rcases hc with h | h | h | h | h | h
  · exact hex8_mem H1 h1 c (List.take_subset _ _ h)
  · exact hex8_mem H2 (by omega) c (List.take_subset _ _ h)
  · exact hex8_mem (H1 + 1) (by omega) c (List.take_subset _ _ h)
  · exact hex8_mem (H2 - 1) (by omega) c (List.take_subset _ _ h)
  · exact hex8_mem (H1 + 1 + 1) (by omega) c (List.take_subset _ _ h)
  · by_cases hcase : 2 ≤ H2
    · exact hex8_mem (H2 - 1 - 1) (by omega) c (List.take_subset _ _ h)
    · have hH2 : H2 = 1 := by omega
      subst hH2
      have h6 : c ∈ (hex8 ((1 : Int) - 1 - 1)).take 6 :=
        take_subset_take _ (by omega) h
      have e6 : (hex8 ((1 : Int) - 1 - 1)).take 6 = ("000000").data := by decide
      rw [e6] at h6
      exact (by decide : ∀ x ∈ (("000000").data : Str), x ∈ hexAlphabet) c h6

/-- C5 (amended): for every seed the three addresses have exactly the
specified shape — "bc1" plus 36 generated characters (39 total), "0x"
plus 40 (42 total), and 44 with no prefix — and the generated
characters all belong to the hexadecimal alphabet whenever the second
hash accumulator ends non-zero for the tagged input, which holds in
particular for the session seed; for seeds driving that accumulator to
exactly 0 the alphabet clause fails (see the counterexample). -/
theorem address_shape_and_alphabet :
    ∀ seed : Str,
      deriveAddress btcApp seed = ("bc1").data ++ pseudoHash (seed ++ (":btc").data) 36 ∧
      (pseudoHash (seed ++ (":btc").data) 36).length = 36 ∧
      (deriveAddress btcApp seed).length = 39 ∧
      deriveAddress ethApp seed = ("0x").data ++ pseudoHash (seed ++ (":eth").data) 40 ∧
      (pseudoHash (seed ++ (":eth").data) 40).length = 40 ∧
      (deriveAddress ethApp seed).length = 42 ∧
      deriveAddress solApp seed = pseudoHash (seed ++ (":sol").data) 44 ∧
      (deriveAddress solApp seed).length = 44 ∧
      ((hashAbsorb (seed ++ (":btc").data)).2 ≠ 0 →
        ∀ c ∈ pseudoHash (seed ++ (":btc").data) 36, c ∈ hexAlphabet) ∧
      ((hashAbsorb (seed ++ (":eth").data)).2 ≠ 0 →
        ∀ c ∈ pseudoHash (seed ++ (":eth").data) 40, c ∈ hexAlphabet) ∧
      ((hashAbsorb (seed ++ (":sol").data)).2 ≠ 0 →
        ∀ c ∈ pseudoHash (seed ++ (":sol").data) 44, c ∈ hexAlphabet) := by
  intro seed
  have alpha : ∀ (tag : Str) (len : Nat), len ≤ 46 →
      (hashAbsorb (seed ++ tag)).2 ≠ 0 →
      ∀ c ∈ (hashBlocks (hashAbsorb (seed ++ tag)).1 (hashAbsorb (seed ++ tag)).2 3).take len,
        c ∈ hexAlphabet := by
    intro tag len hlen hne c hc
    obtain ⟨hH1, hH2⟩ := hashAbsorb_nonneg (seed ++ tag)
    rw [hashBlocks_three] at hc
    exact blocks3_take_mem (hashAbsorb (seed ++ tag)).1 (hashAbsorb (seed ++ tag)).2 hH1
      (by omega) len hlen c hc
  refine ⟨rfl, pseudoHash_length _ _, ?_, rfl, pseudoHash_length _ _, ?_, rfl,
    pseudoHash_length _ _, ?_, ?_, ?_⟩
  · rw [show deriveAddress btcApp seed
        = ("bc1").data ++ pseudoHash (seed ++ (":btc").data) 36 from rfl]
    simp [pseudoHash_length]
  · rw [show deriveAddress ethApp seed
        = ("0x").data ++ pseudoHash (seed ++ (":eth").data) 40 from rfl]
    simp [pseudoHash_length]
  · exact alpha ((":btc").data) 36 (by omega)
  · exact alpha ((":eth").data) 40 (by omega)
  · exact alpha ((":sol").data) 44 (by omega)

/-- C5 counterexample: for the seed "vxwy09k" followed by the character
U+1BC9, the second accumulator ends at exactly 0, so the third `h2`
block of the btc address renders the number -1 and the address contains
the character '-', which is not in the hexadecimal alphabet. -/
theorem address_alphabet_counterexample :
    '-' ∈ deriveAddress btcApp ((("vxwy09k").data) ++ [Char.ofNat 7113]) ∧
    '-' ∉ hexAlphabet := by
  decide

/-- C5 witness: the alphabet property instantiated at the session seed
(whose accumulators are non-zero for all three tags), plus the three
total lengths. -/
theorem address_shape_and_alphabet_witness :
    (∀ c ∈ pseudoHash (initState.seed ++ (":btc").data) 36, c ∈ hexAlphabet) ∧
    (∀ c ∈ pseudoHash (initState.seed ++ (":eth").data) 40, c ∈ hexAlphabet) ∧
    (∀ c ∈ pseudoHash (initState.seed ++ (":sol").data) 44, c ∈ hexAlphabet) ∧
    (deriveAddress btcApp initState.seed).length = 39 ∧
    (deriveAddress ethApp initState.seed).length = 42 ∧
    (deriveAddress solApp initState.seed).length = 44 := by
  have h := address_shape_and_alphabet initState.seed
  exact ⟨h.2.2.2.2.2.2.2.2.1 (by decide), h.2.2.2.2.2.2.2.2.2.1 (by decide),
    h.2.2.2.2.2.2.2.2.2.2 (by decide), h.2.2.1, h.2.2.2.2.2.1, h.2.2.2.2.2.2.2.1⟩

end LedgerSim
